import Mathlib

/-!
Verification development for the BR2 vision-based smoothing pipeline.

Shallow embedding of:
  - `br2_vision/data_structure/posture_data.py`
    (`compute_positions_and_directors`, `PostureData.load_positions_and_directors`)
  - `br2_vision/optical_flow.py` (`CameraOpticalFlow`: `num_frames`, `next_inquiry`, `run`)
  - `script/data_augment_cross_section.py` (`main`)

Machine floats carrying NaN are modelled as `Option ℚ` components (a `none`
component plays the role of NaN); ordinary numeric values are rationals.
External library routines (sklearn's `LinearRegression`, cv2's
`calcOpticalFlowPyrLK` and image decoding) are taken as function parameters,
except for their documented failure behaviour, which is modelled explicitly
(sklearn raises `ValueError` on zero samples).
-/

/-- Pixel coordinate pair, as stored in the per-camera points table. -/
abbrev Pt := ℚ × ℚ

/-- The in-memory points table of `CameraOpticalFlow` (`self.points`),
indexed by frame and tag index; entries are (x, y) pixel pairs. -/
abbrev Table := Nat → Nat → Pt

/-- A 3-vector of plain numbers. -/
abbrev Vec3 := ℚ × ℚ × ℚ

/-- A 3-vector whose components may be NaN (`none` models a NaN component). -/
abbrev Vec3O := Option ℚ × Option ℚ × Option ℚ

/-- A 3x3 matrix given by its three columns. -/
abbrev Mat3 := Vec3 × Vec3 × Vec3

/-- Python-level failures that the embedded code can raise. -/
inductive PyErr where
  | attributeError
  | valueError
  | keyError
  | indexError
  | typeError
  deriving DecidableEq, Repr

/-- Whether an `Except` value is a success. -/
def exOk {ε α : Type} : Except ε α → Bool
  | Except.ok _ => true
  | Except.error _ => false

/-- Sequential effectful map over a list, aborting at the first error:
the shape of every Python `for`-loop in the embedded code that can raise. -/
def mapExcept {ε α β : Type} (f : α → Except ε β) : List α → Except ε (List β)
  | [] => Except.ok []
  | a :: as =>
    match f a with
    | Except.error e => Except.error e
    | Except.ok b =>
      match mapExcept f as with
      | Except.error e => Except.error e
      | Except.ok bs => Except.ok (b :: bs)

/-! ## Posture reconstruction (`posture_data.py`, `compute_positions_and_directors`) -/

/-- Marker geometry description, from `MarkerPositions`.
`Modelled from the spec:` the `MarkerPositions` class lives in repository code
that is not under `src/`; per the spec it is an ordered set of tags with, per
cross-section, a reference 3D offset for each tag, a local origin, and a 3x3
basis `Q` (stored here by columns, so that the rows of the source's `Q.T` are
exactly the fields of `Q`). `numCrossSections` is `len(marker_positions)`. -/
structure MarkerPositionsM where
  tags : List Nat
  numCrossSections : Nat
  get_position : Nat → Nat → Vec3
  origin : Vec3
  Q : Mat3

/-- A fitted-regression predictor: `fit samples` is the prediction function of
`LinearRegression().fit(R, P)` on the given `(R, P)` sample pairs. The
coefficients computed by sklearn are abstracted as this function parameter;
its zero-sample failure is modelled separately in `fitAt`. -/
abbrev FitFn := List (Vec3 × Vec3) → Vec3 → Vec3

/-- True when any component of the observation is NaN
(`np.isnan(P).any(axis=1)` for one row). -/
def hasNaN (v : Vec3O) : Bool := v.1.isNone || v.2.1.isNone || v.2.2.isNone

/-- Extract the numeric content of a NaN-free observation (each component is
`some` on every row that survives the NaN filter). -/
def forceVec (v : Vec3O) : Vec3 := (v.1.getD 0, v.2.1.getD 0, v.2.2.getD 0)

/-- The per-cross-section gathering loop of `compute_positions_and_directors`:
for each tag of the marker set, load its track and keep the pair
(reference position `euler_coords` entry, track series) when the track exists.
`Modelled from the spec:` `dataset.load_track(z, tag)` (class `TrackingData`,
not under `src/`) returns the per-(cross-section, tag) time series, or `None`
when that pair was never tracked; `tracks` is that lookup. -/
def collect (mp : MarkerPositionsM) (tracks : Nat → Nat → Option (List Vec3O))
    (z : Nat) : List (Vec3 × List Vec3O) :=
  mp.tags.filterMap fun tag =>
    (tracks z tag).map fun data => (mp.get_position z tag, data)

/-- Read row `t` of one gathered track (`data[tidx]`); an out-of-range index
raises `IndexError`. -/
def rowAt (t : Nat) (rd : Vec3 × List Vec3O) : Except PyErr (Vec3 × Vec3O) :=
  match rd.2.get? t with
  | some v => Except.ok (rd.1, v)
  | none => Except.error PyErr.indexError

/-- The NaN filter of the timestep loop (`nan_index = np.isnan(P).any(axis=1)`;
`P = P[~nan_index]`, `R = euler_coords[~nan_index]`): keep the `(R, P)` rows
whose observation has no NaN component, as plain numbers. -/
def cleanSamples (P : List (Vec3 × Vec3O)) : List (Vec3 × Vec3) :=
  (P.filter fun rp => !(hasNaN rp.2)).map fun rp => (rp.1, forceVec rp.2)

/-- Body of the inner timestep loop of `compute_positions_and_directors`:
build `P`, drop the rows with a NaN component (keeping the matching
`euler_coords` rows `R`), fit `P ≈ A·R + b`, and predict at the local origin
and at the rows of `Q.T` (that is, at the columns of `Q`); the final `.T`
makes the three predictions the columns of the director matrix.
`LinearRegression().fit` raises `ValueError` when given zero samples. -/
def fitAt (fit : FitFn) (mp : MarkerPositionsM)
    (coll : List (Vec3 × List Vec3O)) (t : Nat) : Except PyErr (Vec3 × Mat3) :=
  match mapExcept (rowAt t) coll with
  | Except.error e => Except.error e
  | Except.ok P =>
    if (cleanSamples P).isEmpty then Except.error PyErr.valueError
    else
      Except.ok (fit (cleanSamples P) mp.origin,
        (fit (cleanSamples P) mp.Q.1, fit (cleanSamples P) mp.Q.2.1,
         fit (cleanSamples P) mp.Q.2.2))

/-- One cross-section of `compute_positions_and_directors`: the timestep loop
runs over `range(len(data_collection[0]))`; an empty `data_collection` makes
`data_collection[0]` raise `IndexError`. -/
def computeZ (fit : FitFn) (mp : MarkerPositionsM)
    (tracks : Nat → Nat → Option (List Vec3O)) (z : Nat) :
    Except PyErr (List (Vec3 × Mat3)) :=
  match collect mp tracks z with
  | [] => Except.error PyErr.indexError
  | c0 :: _ => mapExcept (fitAt fit mp (collect mp tracks z)) (List.range c0.2.length)

/-- `compute_positions_and_directors`. The source stacks the per-cross-section
results with `np.stack(..., axis=-1)`, so the numpy entry `positions[t, :, z]`
(resp. `directors[t, :, :, z]`) is the nested-list entry `[z][t]` here. -/
def compute_positions_and_directors (fit : FitFn) (mp : MarkerPositionsM)
    (tracks : Nat → Nat → Option (List Vec3O)) :
    Except PyErr (List (List Vec3) × List (List Mat3)) :=
  match mapExcept (computeZ fit mp tracks) (List.range mp.numCrossSections) with
  | Except.error e => Except.error e
  | Except.ok rows =>
    Except.ok (rows.map fun r => r.map Prod.fst,
      rows.map fun r => r.map Prod.snd)

/-- The NaN-filtered regression samples of one gathered collection at one
timestep: the `(R, P)` pairs whose series reaches index `t` and whose
observation there has no NaN component. -/
def samplesAt (coll : List (Vec3 × List Vec3O)) (t : Nat) :
    List (Vec3 × Vec3) :=
  cleanSamples (coll.filterMap fun rd => (rd.2.get? t).map fun v => (rd.1, v))

/-- Spec-side description of step 2 of the reconstruction contract: the
surviving samples of cross-section `z` at time `t` are, in tag order, the
(reference position, observation) pairs of the tags whose track exists, whose
series reaches index `t`, and whose observation at `t` has no NaN component. -/
def survivingSamples (mp : MarkerPositionsM)
    (tracks : Nat → Nat → Option (List Vec3O)) (z t : Nat) :
    List (Vec3 × Vec3) :=
  samplesAt (collect mp tracks z) t

/-! ## Optical flow (`optical_flow.py`, `CameraOpticalFlow`) -/

/-- External-routine parameters of the tracker. `flatColor` models
`flat_color` (colour frame to grayscale, cv2); `flow` models
`cv2.calcOpticalFlowPyrLK(old_gray, frame_gray, p0, ...)` with the class's
`_lk_params`, returning the propagated points `p1` and the per-point status
array. Frames are opaque (numbered) images. -/
structure FlowParams where
  flatColor : Nat → Nat
  flow : Nat → Nat → List Pt → List Pt × List Bool

/-- A tracking inquiry `(tags, stime, etime)` as popped from `self.inquiries`. -/
abbrev Inq := List Nat × Nat × Nat

/-- State carried across one iteration of the flow loop:
`old_gray`, the current point array `p0`/`p1`, and the cumulative status. -/
structure IterState where
  gray : Nat
  p : List Pt
  st : List Bool

/-- Write one pixel entry of the points table
(`self.points[f, t, :] = v` for a single frame/tag pair). -/
def writePix (T : Table) (f t : Nat) (v : Pt) : Table :=
  fun f' t' => if f' = f ∧ t' = t then v else T f' t'

/-- Elementwise conjunction of status arrays
(`status = np.logical_and(status, new_status)`). -/
def zipAnd (a b : List Bool) : List Bool := List.zipWith (fun x y => x && y) a b

/-- Whether every point of the batch has lost tracking (`np.all(~status)`). -/
def allFalse (st : List Bool) : Bool := st.all fun b => !b

/-- The value written by the pre-clear assignment
`self.points[stime+1:etime, tag_order, :] = 0.0`: the tracker's sentinel for
a not-(yet-)recovered entry within the job's range. -/
def unknownPixel : Pt := (0, 0)

/-- The pre-clear stage of `next_inquiry`: the bulk numpy assignment
`self.points[stime+1:etime, tag_order, :] = 0.0`, realised frame by frame and
tag by tag. -/
def preClear (T : Table) (stime etime : Nat) (tagOrder : List Nat) : Table :=
  (List.range' (stime + 1) (etime - (stime + 1))).foldl
    (fun Tacc f => tagOrder.foldl (fun Tacc2 t => writePix Tacc2 f t unknownPixel) Tacc)
    T

/-- The per-frame write
`self.points[stime+num_frame+1, tracking_tag_order, :] = p1[status[:,0], 0, :]`:
for each point index with a still-valid cumulative status, store its
propagated pixel pair at its tag's column. -/
def writeValid (T : Table) (f : Nat) : List Nat → List Pt → List Bool → Table
  | t :: ts, p :: ps, b :: bs =>
    writeValid (if b then writePix T f t p else T) f ts ps bs
  | _, _, _ => T

/-- One optical-flow step on a decoded frame: convert it to grayscale,
run the flow from the previous gray frame, and intersect the status. -/
def flowStepFrame (prm : FlowParams) (fr : Nat) (S : IterState) : IterState :=
  let g := prm.flatColor fr
  let pr := prm.flow S.gray g S.p
  ⟨g, pr.1, zipAnd S.st pr.2⟩

/-- One optical-flow step on an attempted frame read
(a failed read leaves the state untouched). -/
def flowStep (prm : FlowParams) (ofr : Option Nat) (S : IterState) : IterState :=
  match ofr with
  | none => S
  | some fr => flowStepFrame prm fr S

/-- The flow-loop trace: the iteration state after `k` iterations starting
from `S`, where iteration `j` (0-based) consumes video frame `base + j + 1`. -/
def flowSteps (prm : FlowParams) (video : List Nat) (base : Nat)
    (S : IterState) : Nat → IterState
  | 0 => S
  | k + 1 => flowSteps prm video (base + 1) (flowStep prm (video.get? (base + 1)) S) k

/-- The flow loop of `next_inquiry` (`for num_frame in tqdm(range(etime - stime))`):
read the next frame (a failed read breaks the loop), run the flow, intersect
the status, break when every point is lost, otherwise write the surviving
points at the current frame and continue. `r` counts the remaining
iterations; `nf` is the source's `num_frame`. The error array `err` is
collected by the source but never used, and is dropped here. -/
def flowLoop (prm : FlowParams) (video : List Nat) (stime : Nat)
    (tagOrder : List Nat) : Table → IterState → Nat → Nat → Table
  | T, _, _, 0 => T
  | T, S, nf, r + 1 =>
    match video.get? (stime + nf + 1) with
    | none => T
    | some fr =>
      let S' := flowStepFrame prm fr S
      if allFalse S'.st then T
      else
        flowLoop prm video stime tagOrder
          (writeValid T (stime + nf + 1) tagOrder S'.p S'.st) S' (nf + 1) r

/-- `tags.index(tag)` for every tag of the job, in order; `None` models the
`ValueError` that `list.index` raises when a tag is absent. -/
def tagOrderOf (tagList jobTags : List Nat) : Option (List Nat) :=
  jobTags.mapM fun tg => tagList.findIdx? fun x => x = tg

/-- Attribute state of a `CameraOpticalFlow` instance. `__init__` stores only
`video_path`, `flow_queues` and `dataset`; every other attribute the class
reads (`_num_frames`, `inquiries`, `history`, `tags`, `points`) is *never*
assigned by `__init__`, which is modelled by wrapping each in `Option`
(`none` = attribute not defined, so that reading it raises `AttributeError`).
`attr_num_frames` is doubly wrapped: the inner `Option` is the Python value
(`None` before the first computation). The video pixels are not attributes;
they are passed to the methods separately. -/
structure COF where
  video_path : Nat
  flow_queues : List Nat
  attr_num_frames : Option (Option Nat)
  attr_inquiries : Option (List Inq)
  attr_history : Option (List Inq)
  attr_tags : Option (List Nat)
  attr_points : Option Table

/-- `CameraOpticalFlow.__init__(video_path, flow_queues, dataset)`: stores the
constructor arguments and nothing else; in particular `_num_frames`,
`inquiries`, `history`, `tags` and `points` are left undefined. -/
def CameraOpticalFlow.init (vp : Nat) (qs : List Nat) : COF :=
  { video_path := vp, flow_queues := qs, attr_num_frames := none,
    attr_inquiries := none, attr_history := none, attr_tags := none,
    attr_points := none }

/-- The `num_frames` property: reads `self._num_frames` (raising
`AttributeError` when the attribute was never assigned), computes
`get_video_frame_count(self.video_path)` — whose result is the parameter
`fc` — when the stored value is `None`, and caches it. -/
def CameraOpticalFlow.num_frames (fc : Nat) (self : COF) :
    Except PyErr (Nat × COF) :=
  match self.attr_num_frames with
  | none => Except.error PyErr.attributeError
  | some none => Except.ok (fc, { self with attr_num_frames := some (some fc) })
  | some (some v) => Except.ok (v, self)

/-- `CameraOpticalFlow.next_inquiry`: pop the next inquiry (reading the
`inquiries` and `history` attributes raises `AttributeError` if they were
never assigned), append it to the history, skip the job with a warning when
`stime >= self.num_frames`, otherwise seek to `stime`, read the seed frame
(`flat_color(None)` on a failed read is a `TypeError`), build `tag_order`,
pre-clear the job's range, take `p0` from row `stime`, and run the flow loop.
The `assert cap.isOpened()` check concerns the video file on disk and has no
counterpart in this state model. The source returns `None`; the model returns
the updated instance. -/
def CameraOpticalFlow.next_inquiry (prm : FlowParams) (video : List Nat)
    (fc : Nat) (self : COF) : Except PyErr COF :=
  match self.attr_inquiries with
  | none => Except.error PyErr.attributeError
  | some [] => Except.ok self
  | some ((tagsJ, stime, etime) :: rest) =>
    match self.attr_history with
    | none => Except.error PyErr.attributeError
    | some hist =>
      let self1 : COF :=
        { self with
          attr_inquiries := some rest
          attr_history := some (hist ++ [(tagsJ, stime, etime)]) }
      match CameraOpticalFlow.num_frames fc self1 with
      | Except.error e => Except.error e
      | Except.ok (nf, self2) =>
        if stime ≥ nf then Except.ok self2
        else
          match video.get? stime with
          | none => Except.error PyErr.typeError
          | some fr0 =>
            match self2.attr_tags with
            | none => Except.error PyErr.attributeError
            | some tagList =>
              match tagOrderOf tagList tagsJ with
              | none => Except.error PyErr.valueError
              | some tagOrder =>
                match self2.attr_points with
                | none => Except.error PyErr.attributeError
                | some T =>
                  let T1 := preClear T stime etime tagOrder
                  let p0 := tagOrder.map fun tg => T1 stime tg
                  let S0 : IterState :=
                    ⟨prm.flatColor fr0, p0, List.replicate tagOrder.length true⟩
                  Except.ok { self2 with
                    attr_points := some (flowLoop prm video stime tagOrder T1 S0 0 (etime - stime)) }

/-- The loop body of `run`: `next_inquiry` for each queue, then
`save_flow_trajectory(data_collection, queue, self.num_frames)`, which reads
the `num_frames` property. `Modelled from the spec:`
`TrackingData.save_flow_trajectory` (not under `src/`) persists one job's
pixel series to the Track Store; it does not modify the tracker instance. -/
def CameraOpticalFlow.runAux (prm : FlowParams) (video : List Nat) (fc : Nat) :
    COF → List Nat → Except PyErr COF
  | s, [] => Except.ok s
  | s, _q :: rest =>
    match CameraOpticalFlow.next_inquiry prm video fc s with
    | Except.error e => Except.error e
    | Except.ok s1 =>
      match CameraOpticalFlow.num_frames fc s1 with
      | Except.error e => Except.error e
      | Except.ok (_, s2) => CameraOpticalFlow.runAux prm video fc s2 rest

/-- `CameraOpticalFlow.run`: process every queue of `self.flow_queues`. -/
def CameraOpticalFlow.run (prm : FlowParams) (video : List Nat) (fc : Nat)
    (self : COF) : Except PyErr COF :=
  CameraOpticalFlow.runAux prm video fc self self.flow_queues

/-! ## Posture data cache (`posture_data.py`, `PostureData.load_positions_and_directors`) -/

/-- A stored array of the HDF5 backing file, flattened. -/
abbrev Arr := List ℚ

/-- The `self._positions_key` dataset path. -/
def positionsKey : String := "/posture/positions"

/-- The `self._directors_key` dataset path. -/
def directorsKey : String := "/posture/directors"

/-- The `self._time_key` dataset path. -/
def timeKey : String := "/dlt-track/timestamps"

/-- `PostureData.load_positions_and_directors`. The backing file is `h5`
(dataset path to stored array); `recompute` is the result of
`compute_positions_and_directors(self.path)` on the same file's track data
(its value is fixed because the function is deterministic in the file).
The method loads each of the two posture datasets that is present, sets
`flag` when either is absent, loads the timestamps (`h5f[self._time_key]`
raises `KeyError` when absent), and, when `flag` is set, overwrites both
arrays with the freshly recomputed pair. The returned tuple is
(`flag`, `_positions`, `_directors`, `_time`); the source keeps these in
instance attributes. -/
def PostureData.load_positions_and_directors (h5 : String → Option Arr)
    (recompute : Except PyErr (Arr × Arr)) :
    Except PyErr (Bool × Arr × Arr × Arr) :=
  match h5 timeKey with
  | none => Except.error PyErr.keyError
  | some tval =>
    match h5 positionsKey, h5 directorsKey with
    | some P, some D => Except.ok (false, P, D, tval)
    | _, _ =>
      match recompute with
      | Except.error e => Except.error e
      | Except.ok (p, d) => Except.ok (true, p, d, tval)

/-! ## Cross-section augmentation script (`script/data_augment_cross_section.py`) -/

/-- Observable effects of the script's statements. -/
inductive ScriptEffect where
  | loadFile
  | computeSections
  | saveFile
  deriving DecidableEq, Repr

/-- One Python statement, abstracted to the names it reads, the name it
binds (if an assignment), and the externally observable effect it performs. -/
structure PyStmt where
  uses : List String
  target : Option String
  effect : Option ScriptEffect

/-- Name-resolution semantics of a straight-line Python body: each statement
first evaluates the names it reads — an unbound name raises
`NameError: name ... is not defined`, aborting before the statement's effect —
then binds its target. Returns either the first unbound name or the final
environment, together with the effects the completed statements performed. -/
def runStmts : List String → List ScriptEffect → List PyStmt →
    Except String (List String) × List ScriptEffect
  | env, eff, [] => (Except.ok env, eff)
  | env, eff, s :: rest =>
    match s.uses.find? (fun u => !(env.contains u)) with
    | some u => (Except.error u, eff)
    | none =>
      runStmts (match s.target with | some tgt => tgt :: env | none => env)
        (eff ++ s.effect.toList) rest

/-- Names in scope when `main(runid, n_ring)` of
`data_augment_cross_section.py` starts: its two parameters plus the module
globals. `Modelled from the spec:` the `config` module (repository code not
under `src/`) supplies the path templates used by the scripts — the script
reads `PREPROCESSED_POSITION_PATH` from it; the spec gives it no further
names, in particular no `file_path`. -/
def augmentGlobals : List String :=
  ["runid", "n_ring", "np", "os", "sys", "get_center_and_normal",
   "PREPROCESSED_POSITION_PATH"]

/-- The body of `main(runid, n_ring)` of `data_augment_cross_section.py`,
statement by statement: the names each line reads, the name it binds, and
its effect. The `for` loop over `range(timelength)` and the trailing prints
are folded into single entries with the names their bodies read. -/
def augmentMainStmts : List PyStmt :=
  [ { uses := ["PREPROCESSED_POSITION_PATH", "runid"],
      target := some "output_file_path", effect := none },
    { uses := ["np", "file_path"], target := some "data",
      effect := some ScriptEffect.loadFile },
    { uses := ["data"], target := some "position_collection", effect := none },
    { uses := ["data"], target := some "tags", effect := none },
    { uses := ["position_collection"], target := some "timelength", effect := none },
    { uses := [], target := some "cross_section_center_position", effect := none },
    { uses := [], target := some "cross_section_director", effect := none },
    { uses := ["timelength", "tags", "position_collection", "np",
               "get_center_and_normal", "n_ring",
               "cross_section_center_position", "cross_section_director"],
      target := none, effect := some ScriptEffect.computeSections },
    { uses := ["np", "cross_section_center_position"],
      target := some "cross_section_center_position", effect := none },
    { uses := ["np", "cross_section_director"],
      target := some "cross_section_director", effect := none },
    { uses := ["cross_section_center_position", "cross_section_director"],
      target := none, effect := none },
    { uses := ["data"], target := some "data", effect := none },
    { uses := ["data", "cross_section_center_position"], target := some "data",
      effect := none },
    { uses := ["data", "cross_section_director"], target := some "data",
      effect := none },
    { uses := ["np", "output_file_path", "data"], target := none,
      effect := some ScriptEffect.saveFile },
    { uses := ["output_file_path"], target := none, effect := none } ]

/-! ## Concrete instances used by the witnesses and counterexamples -/

/-- A regression parameter that predicts the query point itself
(a concrete stand-in for a fitted model in closed evaluations). -/
def fitId : FitFn := fun _ v => v

/-- Marker geometry with three tags on one cross-section. -/
def mpThree : MarkerPositionsM :=
  { tags := [0, 1, 2], numCrossSections := 1,
    get_position := fun _ tg => ((tg : ℚ), 0, 0),
    origin := (0, 0, 0),
    Q := ((1, 0, 0), (0, 1, 0), (0, 0, 1)) }

/-- Tracks for `mpThree`: every tag observed, NaN-free, at the one timestep. -/
def tracksThree : Nat → Nat → Option (List Vec3O) :=
  fun z tg =>
    if z = 0 ∧ tg < 3 then some [(some (tg : ℚ), some 1, some 0)] else none

/-- Marker geometry with a single tag on one cross-section. -/
def mpOne : MarkerPositionsM :=
  { tags := [0], numCrossSections := 1,
    get_position := fun _ _ => (0, 0, 0),
    origin := (0, 0, 0),
    Q := ((1, 0, 0), (0, 1, 0), (0, 0, 1)) }

/-- Tracks for `mpOne`: the single tag's only observation is entirely NaN. -/
def tracksAllNaN : Nat → Nat → Option (List Vec3O) :=
  fun z tg => if z = 0 ∧ tg = 0 then some [(none, none, none)] else none

/-- Flow-tracker externals where the flow keeps every point where it is and
reports success for all of them. -/
def prmKeep : FlowParams :=
  { flatColor := fun n => n,
    flow := fun _ _ ps => (ps, ps.map fun _ => true) }

/-- Flow-tracker externals where the flow reports failure for every point. -/
def prmLoseAll : FlowParams :=
  { flatColor := fun n => n,
    flow := fun _ _ ps => (ps, ps.map fun _ => false) }

/-- Flow-tracker externals where the flow shifts every point one pixel right
and fails exactly the points sitting on the line `x = 7`. -/
def prmShift : FlowParams :=
  { flatColor := fun n => n,
    flow := fun _ _ ps => (ps.map fun p => (p.1 + 1, p.2), ps.map fun p => !(p.1 = 7 : Bool)) }

/-- A four-frame video. -/
def vidFour : List Nat := [10, 11, 12, 13]

/-- A points table holding a recognisable stale value everywhere. -/
def staleTable : Table := fun _ _ => (9, 9)

/-- A fully initialised tracker instance for the skip-branch witness:
one pending inquiry for tag `1` over frames 5 to 8, with `_num_frames`
already cached as `4`. -/
def cofSkip : COF :=
  { video_path := 0, flow_queues := [0],
    attr_num_frames := some (some 4),
    attr_inquiries := some [([1], 5, 8)],
    attr_history := some [],
    attr_tags := some [0, 1],
    attr_points := some staleTable }

/-- A two-point iteration state entering the flow loop. -/
def iterTwo : IterState := ⟨10, [(1, 2), (3, 4)], [true, true]⟩

/-- A backing file holding both posture datasets and the timestamps. -/
def h5Full : String → Option Arr :=
  fun k =>
    if k = positionsKey then some [1, 2]
    else if k = directorsKey then some [3, 4]
    else if k = timeKey then some [0, 5] else none

/-! ## Helper lemmas -/

theorem mapExcept_ok_length {ε α β : Type} {f : α → Except ε β} :
    ∀ {l : List α} {bs : List β},
      mapExcept f l = Except.ok bs → bs.length = l.length := by
  intro l
  induction l with
  | nil => intro bs h; simp [mapExcept] at h; simp [← h]
  | cons a as ih =>
    intro bs h
    simp only [mapExcept] at h
    cases hfa : f a with
    | error e => rw [hfa] at h; exact absurd h (by simp)
    | ok b =>
      rw [hfa] at h
      cases hrest : mapExcept f as with
      | error e => rw [hrest] at h; exact absurd h (by simp)
      | ok bs' =>
        rw [hrest] at h
        cases h
        simpa using ih hrest

theorem mapExcept_ok_get {ε α β : Type} {f : α → Except ε β} :
    ∀ {l : List α} {bs : List β} {i : Nat} {a : α} {b : β},
      mapExcept f l = Except.ok bs → l.get? i = some a → bs.get? i = some b →
      f a = Except.ok b := by
  intro l
  induction l with
  | nil => intro bs i a b _ ha _; simp at ha
  | cons x xs ih =>
    intro bs i a b h ha hb
    simp only [mapExcept] at h
    cases hfa : f x with
    | error e => rw [hfa] at h; exact absurd h (by simp)
    | ok y =>
      rw [hfa] at h
      cases hrest : mapExcept f xs with
      | error e => rw [hrest] at h; exact absurd h (by simp)
      | ok ys =>
        rw [hrest] at h
        cases h
        cases i with
        | zero =>
          simp only [List.get?] at ha hb
          cases ha; cases hb; exact hfa
        | succ j =>
          simp only [List.get?] at ha hb
          exact ih hrest ha hb

theorem writePix_ne {T : Table} {f t f' t' : Nat} {v : Pt}
    (h : ¬(f' = f ∧ t' = t)) : writePix T f t v f' t' = T f' t' := by
  simp [writePix, h]

theorem writePix_eq {T : Table} {f t : Nat} {v : Pt} :
    writePix T f t v f t = v := by
  simp [writePix]

theorem writeValid_ne_frame :
    ∀ (ts : List Nat) (ps : List Pt) (bs : List Bool) (T : Table)
      (f f' t' : Nat), f' ≠ f →
      writeValid T f ts ps bs f' t' = T f' t' := by
  intro ts
  induction ts with
  | nil => intro ps bs T f f' t' _; rfl
  | cons t ts ih =>
    intro ps bs T f f' t' h
    cases ps with
    | nil => rfl
    | cons p ps =>
      cases bs with
      | nil => rfl
      | cons b bs =>
        show writeValid (if b then writePix T f t p else T) f ts ps bs f' t' = T f' t'
        rw [ih _ _ _ _ _ _ h]
        by_cases hb : b = true
        · rw [if_pos hb]
          exact writePix_ne fun hc => h hc.1
        · rw [if_neg hb]

theorem writeValid_not_mem :
    ∀ (ts : List Nat) (ps : List Pt) (bs : List Bool) (T : Table)
      (f f'' t' : Nat), t' ∉ ts →
      writeValid T f ts ps bs f'' t' = T f'' t' := by
  intro ts
  induction ts with
  | nil => intro ps bs T f f'' t' _; rfl
  | cons t ts ih =>
    intro ps bs T f f'' t' h
    cases ps with
    | nil => rfl
    | cons p ps =>
      cases bs with
      | nil => rfl
      | cons b bs =>
        have ht : t' ≠ t := fun he => h (by simp [he])
        have hts : t' ∉ ts := fun he => h (by simp [he])
        show writeValid (if b then writePix T f t p else T) f ts ps bs f'' t' = T f'' t'
        rw [ih _ _ _ _ _ _ hts]
        by_cases hb : b = true
        · rw [if_pos hb]
          exact writePix_ne fun hc => ht hc.2
        · rw [if_neg hb]

theorem writeValid_getD :
    ∀ (ts : List Nat) (ps : List Pt) (bs : List Bool) (T : Table)
      (f i : Nat), ts.Nodup → i < ts.length →
      ps.length = ts.length → bs.length = ts.length →
      writeValid T f ts ps bs f (ts.getD i 0) =
        if bs.getD i false = true then ps.getD i (0, 0)
        else T f (ts.getD i 0) := by
  intro ts
  induction ts with
  | nil => intro ps bs T f i _ hi _ _; simp at hi
  | cons t ts ih =>
    intro ps bs T f i hnd hi hps hbs
    cases ps with
    | nil => simp at hps
    | cons p ps =>
      cases bs with
      | nil => simp at hbs
      | cons b bs =>
        have hnd1 : t ∉ ts := by simp [List.nodup_cons] at hnd; exact hnd.1
        have hnd2 : ts.Nodup := by simp [List.nodup_cons] at hnd; exact hnd.2
        cases i with
        | zero =>
          simp only [List.getD_cons_zero]
          show writeValid (if b then writePix T f t p else T) f ts ps bs f t = _
          rw [writeValid_not_mem _ _ _ _ _ _ _ hnd1]
          by_cases hb : b = true
          · rw [if_pos hb, if_pos hb]
            exact writePix_eq
          · rw [if_neg hb, if_neg hb]
        | succ j =>
          have hj : j < ts.length := by simpa using hi
          have hmem : ts.getD j 0 ∈ ts := by
            rw [List.getD_eq_getElem ts 0 hj]
            exact List.getElem_mem _
          have hne : ts.getD j 0 ≠ t := fun he => hnd1 (he ▸ hmem)
          have hT0 : (if b = true then writePix T f t p else T) f (ts.getD j 0)
              = T f (ts.getD j 0) := by
            by_cases hb : b = true
            · rw [if_pos hb]
              exact writePix_ne fun hc => hne hc.2
            · rw [if_neg hb]
          simp only [List.getD_cons_succ]
          show writeValid (if b = true then writePix T f t p else T) f ts ps bs f (ts.getD j 0) = _
          rw [ih ps bs _ f j hnd2 hj (by simpa using hps) (by simpa using hbs)]
          by_cases hsb : bs.getD j false = true
          · rw [if_pos hsb, if_pos hsb]
          · rw [if_neg hsb, if_neg hsb]
            exact hT0

theorem innerClear_spec :
    ∀ (tagOrder : List Nat) (T : Table) (f f' t' : Nat),
      (tagOrder.foldl (fun Tacc tg => writePix Tacc f tg unknownPixel) T) f' t' =
        if f' = f ∧ t' ∈ tagOrder then unknownPixel else T f' t' := by
  intro tagOrder
  induction tagOrder with
  | nil => intro T f f' t'; simp
  | cons t ts ih =>
    intro T f f' t'
    show (ts.foldl _ (writePix T f t unknownPixel)) f' t' = _
    rw [ih]
    by_cases h1 : f' = f ∧ t' ∈ ts
    · simp [h1, h1.2]
    · by_cases h2 : f' = f ∧ t' = t
      · simp [h2.1, h2.2, writePix, h2]
      · have : ¬(f' = f ∧ t' ∈ t :: ts) := by
          intro hc
          rcases hc with ⟨hf, hm⟩
          rcases List.mem_cons.mp hm with he | he
          · exact h2 ⟨hf, he⟩
          · exact h1 ⟨hf, he⟩
        simp only [h1, if_false, this, if_false]
        exact writePix_ne h2

theorem zipAnd_length (a b : List Bool) :
    (zipAnd a b).length = min a.length b.length := by
  simp [zipAnd]

theorem allFalse_zipAnd :
    ∀ {a : List Bool}, allFalse a = true → ∀ (b : List Bool),
      allFalse (zipAnd a b) = true := by
  intro a
  induction a with
  | nil => intro _ b; cases b <;> rfl
  | cons x xs ih =>
    intro h b
    cases b with
    | nil => rfl
    | cons y ys =>
      simp [allFalse, zipAnd] at h ⊢
      exact ⟨by simp [h.1], by
        have := ih (by simp [allFalse]; exact h.2) ys
        simpa [allFalse, zipAnd] using this⟩

theorem allFalse_getD :
    ∀ {a : List Bool}, allFalse a = true → ∀ (i : Nat),
      a.getD i false = false := by
  intro a
  induction a with
  | nil => intro _ i; simp
  | cons x xs ih =>
    intro h i
    simp [allFalse] at h
    cases i with
    | zero => simpa using h.1
    | succ j =>
      simp only [List.getD_cons_succ]
      exact ih (by simp [allFalse]; exact h.2) j

theorem flowSteps_zero (prm : FlowParams) (video : List Nat) (base : Nat)
    (S : IterState) : flowSteps prm video base S 0 = S := rfl

theorem flowSteps_succ (prm : FlowParams) (video : List Nat) (base : Nat)
    (S : IterState) (k : Nat) :
    flowSteps prm video base S (k + 1) =
      flowSteps prm video (base + 1)
        (flowStep prm (video.get? (base + 1)) S) k := rfl

theorem flowStep_st_allFalse {prm : FlowParams} {S : IterState}
    (h : allFalse S.st = true) (ofr : Option Nat) :
    allFalse (flowStep prm ofr S).st = true := by
  cases ofr with
  | none => exact h
  | some fr => exact allFalse_zipAnd h _

theorem flowSteps_allFalse {prm : FlowParams} {video : List Nat} :
    ∀ (k : Nat) (base : Nat) (S : IterState), allFalse S.st = true →
      allFalse ((flowSteps prm video base S k).st) = true := by
  intro k
  induction k with
  | zero => intro base S h; exact h
  | succ m ih =>
    intro base S h
    rw [flowSteps_succ]
    exact ih _ _ (flowStep_st_allFalse h _)

theorem flowSteps_lengths {prm : FlowParams} {video : List Nat} {n : Nat}
    (hflow : ∀ g g' ps, (prm.flow g g' ps).1.length = ps.length ∧
      (prm.flow g g' ps).2.length = ps.length) :
    ∀ (k base : Nat) (S : IterState), S.p.length = n → S.st.length = n →
      (flowSteps prm video base S k).p.length = n ∧
      (flowSteps prm video base S k).st.length = n := by
  intro k
  induction k with
  | zero => intro base S hp hst; exact ⟨hp, hst⟩
  | succ m ih =>
    intro base S hp hst
    rw [flowSteps_succ]
    apply ih
    · cases hv : video.get? (base + 1) with
      | none => simpa [flowStep] using hp
      | some fr =>
        simp only [flowStep, flowStepFrame]
        rw [(hflow _ _ _).1, hp]
    · cases hv : video.get? (base + 1) with
      | none => simpa [flowStep] using hst
      | some fr =>
        simp only [flowStep, flowStepFrame]
        rw [zipAnd_length, (hflow _ _ _).2, hp, hst]
        simp

theorem flowLoop_succ (prm : FlowParams) (video : List Nat) (stime : Nat)
    (tagOrder : List Nat) (T : Table) (S : IterState) (nf r : Nat) :
    flowLoop prm video stime tagOrder T S nf (r + 1) =
      (match video.get? (stime + nf + 1) with
       | none => T
       | some fr =>
         let S' := flowStepFrame prm fr S
         if allFalse S'.st then T
         else
           flowLoop prm video stime tagOrder
             (writeValid T (stime + nf + 1) tagOrder S'.p S'.st) S'
             (nf + 1) r) := rfl

theorem flowLoop_lower {prm : FlowParams} {video : List Nat} {stime : Nat}
    {tagOrder : List Nat} :
    ∀ (r : Nat) (T : Table) (S : IterState) (nf f t : Nat), f ≤ stime + nf →
      flowLoop prm video stime tagOrder T S nf r f t = T f t := by
  intro r
  induction r with
  | zero => intro T S nf f t _; rfl
  | succ m ih =>
    intro T S nf f t hf
    rw [flowLoop_succ]
    cases hv : video.get? (stime + nf + 1) with
    | none => simp
    | some fr =>
      simp only
      by_cases hall : allFalse (flowStepFrame prm fr S).st = true
      · rw [if_pos hall]
      · rw [if_neg hall]
        rw [ih _ _ _ _ _ (by omega)]
        exact writeValid_ne_frame _ _ _ _ _ _ _ (by omega)

/-- C7: if at some iteration `k` of a job's flow loop the cumulative status
becomes all-false (every point of the batch lost), the loop stops there: the
returned points table agrees with the table `T` it entered the loop with at
the frame read by that iteration (`stime + nf + k + 1`) and at every later
frame, for every tag — no pixel entry is written at or after the total-loss
frame. The loop is a total function, so the early stop raises nothing. -/
theorem c7_total_loss_stops_loop {prm : FlowParams} {video : List Nat}
    {stime : Nat} {tagOrder : List Nat} :
    ∀ (k r : Nat) (T : Table) (S : IterState) (nf : Nat),
      allFalse ((flowSteps prm video (stime + nf) S (k + 1)).st) = true →
      ∀ (f t : Nat), stime + nf + k + 1 ≤ f →
        flowLoop prm video stime tagOrder T S nf r f t = T f t := by
  intro k
  induction k with
  | zero =>
    intro r T S nf hall f t hf
    cases r with
    | zero => rfl
    | succ m =>
      rw [flowLoop_succ]
      cases hv : video.get? (stime + nf + 1) with
      | none => simp
      | some fr =>
        simp only
        rw [flowSteps_succ, flowSteps_zero, hv] at hall
        simp only [flowStep] at hall
        rw [if_pos hall]
  | succ j ih =>
    intro r T S nf hall f t hf
    cases r with
    | zero => rfl
    | succ m =>
      rw [flowLoop_succ]
      cases hv : video.get? (stime + nf + 1) with
      | none => simp
      | some fr =>
        simp only
        rw [flowSteps_succ, hv] at hall
        by_cases h1 : allFalse (flowStepFrame prm fr S).st = true
        · rw [if_pos h1]
        · rw [if_neg h1]
          have hall' : allFalse
              ((flowSteps prm video (stime + (nf + 1)) (flowStepFrame prm fr S) (j + 1)).st) = true := by
            have he : stime + (nf + 1) = stime + nf + 1 := by omega
            rw [he]
            exact hall
          rw [ih _ _ _ _ hall' f t (by omega)]
          exact writeValid_ne_frame _ _ _ _ _ _ _ (by omega)

/-- C6: full per-point characterisation of one tracking job's flow loop.
For point index `i` of the batch, after the loop the points-table entry at
the frame of iteration `k` and at that point's tag column equals its
flow-propagated coordinate when the point's cumulative status is still valid
there, and is left exactly as the incoming (pre-cleared) table had it when
the status has failed. Since the cumulative status is the running
conjunction of the per-frame flow statuses (`np.logical_and`), a point that
fails once has a false cumulative status at every later iteration, so its
entries are never written again within the job, while points that remain
valid receive their propagated coordinates at every succeeding frame. -/
theorem c6_point_status_characterisation {prm : FlowParams} {video : List Nat}
    {stime : Nat} {tagOrder : List Nat} {i : Nat}
    (hflow : ∀ g g' ps, (prm.flow g g' ps).1.length = ps.length ∧
      (prm.flow g g' ps).2.length = ps.length)
    (hnd : tagOrder.Nodup) (hi : i < tagOrder.length) :
    ∀ (k r : Nat) (T : Table) (S : IterState) (nf : Nat),
      S.p.length = tagOrder.length → S.st.length = tagOrder.length →
      k < r →
      (∀ j, j < k + 1 → (video.get? (stime + nf + j + 1)).isSome = true) →
      flowLoop prm video stime tagOrder T S nf r
          (stime + nf + k + 1) (tagOrder.getD i 0) =
        if (flowSteps prm video (stime + nf) S (k + 1)).st.getD i false = true
        then (flowSteps prm video (stime + nf) S (k + 1)).p.getD i (0, 0)
        else T (stime + nf + k + 1) (tagOrder.getD i 0) := by
  intro k
  induction k with
  | zero =>
    intro r T S nf hp hst hk hread
    cases r with
    | zero => omega
    | succ m =>
      have h0 := hread 0 (by omega)
      rcases Option.isSome_iff_exists.mp h0 with ⟨fr, hv⟩
      rw [show stime + nf + 0 + 1 = stime + nf + 1 from by omega] at hv ⊢
      rw [flowLoop_succ, hv]
      simp only
      rw [flowSteps_succ, flowSteps_zero, hv]
      simp only [flowStep]
      have hplen : (flowStepFrame prm fr S).p.length = tagOrder.length := by
        simp only [flowStepFrame]
        rw [(hflow _ _ _).1, hp]
      have hstlen : (flowStepFrame prm fr S).st.length = tagOrder.length := by
        simp only [flowStepFrame]
        rw [zipAnd_length, (hflow _ _ _).2, hp, hst]
        simp
      by_cases hall : allFalse (flowStepFrame prm fr S).st = true
      · rw [if_pos hall]
        rw [allFalse_getD hall i]
        simp
      · rw [if_neg hall]
        rw [flowLoop_lower _ _ _ _ _ _ (by omega)]
        exact writeValid_getD _ _ _ _ _ _ hnd hi
          (by rw [hplen]) (by rw [hstlen])
  | succ j ih =>
    intro r T S nf hp hst hk hread
    cases r with
    | zero => omega
    | succ m =>
      have h0 := hread 0 (by omega)
      rcases Option.isSome_iff_exists.mp h0 with ⟨fr, hv⟩
      rw [show stime + nf + 0 + 1 = stime + nf + 1 from by omega] at hv
      rw [flowLoop_succ, hv]
      simp only
      rw [flowSteps_succ, hv]
      simp only [flowStep]
      have hplen : (flowStepFrame prm fr S).p.length = tagOrder.length := by
        simp only [flowStepFrame]
        rw [(hflow _ _ _).1, hp]
      have hstlen : (flowStepFrame prm fr S).st.length = tagOrder.length := by
        simp only [flowStepFrame]
        rw [zipAnd_length, (hflow _ _ _).2, hp, hst]
        simp
      by_cases hall : allFalse (flowStepFrame prm fr S).st = true
      · rw [if_pos hall]
        have hAF : allFalse ((flowSteps prm video (stime + nf + 1)
            (flowStepFrame prm fr S) (j + 1)).st) = true :=
          flowSteps_allFalse _ _ _ hall
        rw [allFalse_getD hAF i]
        simp
      · rw [if_neg hall]
        have hread' : ∀ j', j' < j + 1 →
            (video.get? (stime + (nf + 1) + j' + 1)).isSome = true := by
          intro j' hj'
          have := hread (j' + 1) (by omega)
          rw [show stime + nf + (j' + 1) + 1 = stime + (nf + 1) + j' + 1 from by omega] at this
          exact this
        have := ih m
          (writeValid T (stime + nf + 1) tagOrder
            (flowStepFrame prm fr S).p (flowStepFrame prm fr S).st)
          (flowStepFrame prm fr S) (nf + 1) hplen hstlen (by omega) hread'
        rw [show stime + (nf + 1) + j + 1 = stime + nf + (j + 1) + 1 from by omega] at this
        rw [show stime + (nf + 1) = stime + nf + 1 from by omega] at this
        rw [this]
        by_cases hsd : (flowSteps prm video (stime + nf + 1)
            (flowStepFrame prm fr S) (j + 1)).st.getD i false = true
        · rw [if_pos hsd, if_pos hsd]
        · rw [if_neg hsd, if_neg hsd]
          exact writeValid_ne_frame _ _ _ _ _ _ _ (by omega)

theorem rangeClear_spec (tagOrder : List Nat) :
    ∀ (n s : Nat) (T : Table) (f' t' : Nat),
      ((List.range' s n).foldl
        (fun Tacc f => tagOrder.foldl
          (fun Tacc2 tg => writePix Tacc2 f tg unknownPixel) Tacc) T) f' t' =
        if s ≤ f' ∧ f' < s + n ∧ t' ∈ tagOrder then unknownPixel
        else T f' t' := by
  intro n
  induction n with
  | zero =>
    intro s T f' t'
    have h0 : ¬(s ≤ f' ∧ f' < s + 0 ∧ t' ∈ tagOrder) := by
      intro hc
      rcases hc with ⟨h1, h2, _⟩
      omega
    rw [if_neg h0]
    rfl
  | succ m ih =>
    intro s T f' t'
    rw [show List.range' s (m + 1) = s :: List.range' (s + 1) m from rfl]
    show ((List.range' (s + 1) m).foldl _ (tagOrder.foldl _ T)) f' t' = _
    rw [ih]
    by_cases h1 : s + 1 ≤ f' ∧ f' < s + 1 + m ∧ t' ∈ tagOrder
    · have : s ≤ f' ∧ f' < s + (m + 1) ∧ t' ∈ tagOrder := by
        exact ⟨by omega, by omega, h1.2.2⟩
      simp [h1, this]
    · rw [if_neg h1, innerClear_spec]
      by_cases h2 : f' = s ∧ t' ∈ tagOrder
      · have : s ≤ f' ∧ f' < s + (m + 1) ∧ t' ∈ tagOrder := by
          exact ⟨by omega, by omega, h2.2⟩
        simp [h2, this]
      · have : ¬(s ≤ f' ∧ f' < s + (m + 1) ∧ t' ∈ tagOrder) := by
          intro hc
          rcases hc with ⟨ha, hb, hm⟩
          rcases Nat.lt_or_ge f' (s + 1) with hf | hf
          · exact h2 ⟨by omega, hm⟩
          · exact h1 ⟨hf, by omega, hm⟩
        simp [h2, this]

theorem mapExcept_rowAt_ok {t : Nat} :
    ∀ {coll : List (Vec3 × List Vec3O)} {P : List (Vec3 × Vec3O)},
      mapExcept (rowAt t) coll = Except.ok P →
      P = coll.filterMap fun rd => (rd.2.get? t).map fun v => (rd.1, v) := by
  intro coll
  induction coll with
  | nil =>
    intro P h
    simp only [mapExcept] at h
    cases h
    rfl
  | cons rd coll ih =>
    intro P h
    simp only [mapExcept] at h
    cases hv : rd.2.get? t with
    | none =>
      rw [show rowAt t rd = Except.error PyErr.indexError from by
        simp only [rowAt]; rw [hv]] at h
      exact absurd h (by simp)
    | some v =>
      rw [show rowAt t rd = Except.ok (rd.1, v) from by
        simp only [rowAt]; rw [hv]] at h
      cases hrest : mapExcept (rowAt t) coll with
      | error e => rw [hrest] at h; exact absurd h (by simp)
      | ok P' =>
        rw [hrest] at h
        cases h
        rw [List.filterMap_cons, hv]
        simp only [Option.map_some']
        rw [ih hrest]

theorem fitAt_ok_spec {fit : FitFn} {mp : MarkerPositionsM}
    {coll : List (Vec3 × List Vec3O)} {t : Nat} {e : Vec3 × Mat3}
    (h : fitAt fit mp coll t = Except.ok e) :
    samplesAt coll t ≠ [] ∧
    e = (fit (samplesAt coll t) mp.origin,
      (fit (samplesAt coll t) mp.Q.1, fit (samplesAt coll t) mp.Q.2.1,
       fit (samplesAt coll t) mp.Q.2.2)) := by
  simp only [fitAt] at h
  split at h
  · exact absurd h (by simp)
  · rename_i P hm
    have hs : cleanSamples P = samplesAt coll t := by
      rw [mapExcept_rowAt_ok hm]; rfl
    rw [hs] at h
    split at h
    · exact absurd h (by simp)
    · rename_i hne
      cases h
      refine ⟨?_, rfl⟩
      intro hnil
      apply hne
      rw [hnil]
      rfl

theorem compute_ok_entry {fit : FitFn} {mp : MarkerPositionsM}
    {tracks : Nat → Nat → Option (List Vec3O)}
    {pos : List (List Vec3)} {dir : List (List Mat3)} {z t : Nat}
    {pzs : List Vec3} {pv : Vec3} {dzs : List Mat3} {dv : Mat3}
    (hok : compute_positions_and_directors fit mp tracks = Except.ok (pos, dir))
    (hz : pos.get? z = some pzs) (ht : pzs.get? t = some pv)
    (hz2 : dir.get? z = some dzs) (ht2 : dzs.get? t = some dv) :
    fitAt fit mp (collect mp tracks z) t = Except.ok (pv, dv) := by
  simp only [compute_positions_and_directors] at hok
  split at hok
  · exact absurd hok (by simp)
  · rename_i rows hrows
    rw [Except.ok.injEq, Prod.mk.injEq] at hok
    have hpos : pos = rows.map fun r => r.map Prod.fst := hok.1.symm
    have hdir : dir = rows.map fun r => r.map Prod.snd := hok.2.symm
    rw [hpos] at hz
    rw [hdir] at hz2
    rw [List.get?_map] at hz hz2
    rcases Option.map_eq_some'.mp hz with ⟨rowz, hrowz, hpzs⟩
    rcases Option.map_eq_some'.mp hz2 with ⟨rowz2, hrowz2, hdzs⟩
    rw [hrowz] at hrowz2
    cases hrowz2
    have hzlt : z < rows.length := by
      by_contra hc
      rw [List.get?_eq_none.mpr (by omega)] at hrowz
      exact absurd hrowz (by simp)
    have hlen := mapExcept_ok_length hrows
    have hrange : (List.range mp.numCrossSections).get? z = some z := by
      rw [List.get?_range]
      rw [hlen, List.length_range] at hzlt
      exact hzlt
    have hcz : computeZ fit mp tracks z = Except.ok rowz :=
      mapExcept_ok_get hrows hrange hrowz
    simp only [computeZ] at hcz
    split at hcz
    · exact absurd hcz (by simp)
    · rename_i c0 cs hcoll
      rw [← hpzs] at ht
      rw [← hdzs] at ht2
      rw [List.get?_map] at ht ht2
      rcases Option.map_eq_some'.mp ht with ⟨et, het, het1⟩
      rcases Option.map_eq_some'.mp ht2 with ⟨et2, het2, het3⟩
      rw [het] at het2
      cases het2
      have htlt : t < rowz.length := by
        by_contra hc
        rw [List.get?_eq_none.mpr (by omega)] at het
        exact absurd het (by simp)
      have hlen2 := mapExcept_ok_length hcz
      have hrange2 : (List.range c0.2.length).get? t = some t := by
        rw [List.get?_range]
        rw [hlen2, List.length_range] at htlt
        exact htlt
      have hfit := mapExcept_ok_get hcz hrange2 het
      have hee : et = (pv, dv) := by
        rw [← het1, ← het3]
      rw [← hee]
      exact hfit

theorem samplesAt_nil_of_allNaN {coll : List (Vec3 × List Vec3O)} {t : Nat}
    (hnan : ∀ rd ∈ coll, (rd.2.get? t).all hasNaN = true) :
    samplesAt coll t = [] := by
  simp only [samplesAt, cleanSamples]
  have hfil : ((coll.filterMap fun rd =>
      (rd.2.get? t).map fun v => (rd.1, v)).filter
        fun rp => !(hasNaN rp.2)) = [] := by
    rw [List.filter_eq_nil]
    intro rp hrp
    rcases List.mem_filterMap.mp hrp with ⟨rd, hrd, hmap⟩
    rcases Option.map_eq_some'.mp hmap with ⟨v, hv, hveq⟩
    have hval := hnan rd hrd
    rw [hv] at hval
    simp only [Option.all_some] at hval
    rw [← hveq]
    simp [hval]
  rw [hfil]
  rfl

/-- C1: for every cross-section index `z` and timestep `t` at which
`compute_positions_and_directors` produces entries, the position entry
(`positions[t, :, z]`, here the nested entry `pos[z][t]`) is the fitted
regression's prediction at the cross-section's local origin, and the director
entry is the 3x3 matrix whose columns are the regression's predictions at the
three local basis axes (the columns of `Q`); the regression is fitted on
exactly the surviving tags — those whose observation at `t` has no NaN
component (`survivingSamples`). -/
theorem c1_reconstruction_entry (fit : FitFn) (mp : MarkerPositionsM)
    (tracks : Nat → Nat → Option (List Vec3O))
    (pos : List (List Vec3)) (dir : List (List Mat3)) (z t : Nat)
    (pzs : List Vec3) (pv : Vec3) (dzs : List Mat3) (dv : Mat3)
    (hok : compute_positions_and_directors fit mp tracks = Except.ok (pos, dir))
    (hz : pos.get? z = some pzs) (ht : pzs.get? t = some pv)
    (hz2 : dir.get? z = some dzs) (ht2 : dzs.get? t = some dv) :
    pv = fit (survivingSamples mp tracks z t) mp.origin ∧
    dv = (fit (survivingSamples mp tracks z t) mp.Q.1,
          fit (survivingSamples mp tracks z t) mp.Q.2.1,
          fit (survivingSamples mp tracks z t) mp.Q.2.2) := by
  have hfit := compute_ok_entry hok hz ht hz2 ht2
  have hspec := fitAt_ok_spec hfit
  have hsv : samplesAt (collect mp tracks z) t = survivingSamples mp tracks z t := rfl
  rw [hsv] at hspec
  have he := hspec.2
  rw [Prod.mk.injEq] at he
  exact ⟨he.1, he.2⟩

theorem c1_witness :
    (0, 0, 0) = fitId (survivingSamples mpThree tracksThree 0 0) mpThree.origin ∧
    ((1, 0, 0), (0, 1, 0), (0, 0, 1)) =
      (fitId (survivingSamples mpThree tracksThree 0 0) mpThree.Q.1,
       fitId (survivingSamples mpThree tracksThree 0 0) mpThree.Q.2.1,
       fitId (survivingSamples mpThree tracksThree 0 0) mpThree.Q.2.2) :=
  c1_reconstruction_entry fitId mpThree tracksThree
    [[(0, 0, 0)]] [[((1, 0, 0), (0, 1, 0), (0, 0, 1))]] 0 0
    [(0, 0, 0)] (0, 0, 0)
    [((1, 0, 0), (0, 1, 0), (0, 0, 1))] ((1, 0, 0), (0, 1, 0), (0, 0, 1))
    rfl (by decide) (by decide) (by decide) (by decide)

/-- C3 counterexample: a cross-section with exactly 3 valid (NaN-free) tags
at a timestep — fewer than the 4 the claim says must be flagged — is fitted
silently: the computation succeeds and returns ordinary fitted entries, with
no warning and no minimum-sample-count condition surfaced anywhere. -/
theorem c3_counterexample :
    (survivingSamples mpThree tracksThree 0 0).length = 3 ∧
    compute_positions_and_directors fitId mpThree tracksThree =
      Except.ok ([[(0, 0, 0)]], [[((1, 0, 0), (0, 1, 0), (0, 0, 1))]]) := by
  constructor
  · decide
  · rfl

/-- C3 (amended): when a cross-section has fewer than 4 surviving tags at a
timestep (but at least one), `compute_positions_and_directors` performs the
regression silently and returns its fitted prediction as the entry — there is
no warning and no minimum-sample-count check; only the zero-survivor case
surfaces a condition, as a `ValueError` raised by the fit. -/
theorem c3_silent_degenerate_fit (fit : FitFn) (mp : MarkerPositionsM)
    (tracks : Nat → Nat → Option (List Vec3O))
    (pos : List (List Vec3)) (dir : List (List Mat3)) (z t : Nat)
    (pzs : List Vec3) (pv : Vec3) (dzs : List Mat3) (dv : Mat3)
    (hlen : (survivingSamples mp tracks z t).length < 4)
    (hok : compute_positions_and_directors fit mp tracks = Except.ok (pos, dir))
    (hz : pos.get? z = some pzs) (ht : pzs.get? t = some pv)
    (hz2 : dir.get? z = some dzs) (ht2 : dzs.get? t = some dv) :
    pv = fit (survivingSamples mp tracks z t) mp.origin := by
  have hfit := compute_ok_entry hok hz ht hz2 ht2
  have hspec := fitAt_ok_spec hfit
  have hsv : samplesAt (collect mp tracks z) t = survivingSamples mp tracks z t := rfl
  rw [hsv] at hspec
  have he := hspec.2
  rw [Prod.mk.injEq] at he
  exact he.1

theorem c3_witness :
    (0, 0, 0) = fitId (survivingSamples mpThree tracksThree 0 0) mpThree.origin :=
  c3_silent_degenerate_fit fitId mpThree tracksThree
    [[(0, 0, 0)]] [[((1, 0, 0), (0, 1, 0), (0, 0, 1))]] 0 0
    [(0, 0, 0)] (0, 0, 0)
    [((1, 0, 0), (0, 1, 0), (0, 0, 1))] ((1, 0, 0), (0, 1, 0), (0, 0, 1))
    (by decide) rfl (by decide) (by decide) (by decide) (by decide)

/-- C4 counterexample: with a single tag whose only observation is entirely
NaN, `compute_positions_and_directors` raises (the zero-sample `ValueError`
of `LinearRegression().fit`) instead of leaving NaN entries: the claim's
"does not raise" fails at this input. -/
theorem c4_counterexample :
    compute_positions_and_directors fitId mpOne tracksAllNaN =
      Except.error PyErr.valueError := rfl

/-- C4 (amended): for every cross-section and timestep at which all tags'
observations are missing (every present observation at `t` is NaN),
`compute_positions_and_directors` does not return a result at all: the
regression fit raises on zero samples, so no center or director entry —
arbitrary or otherwise — is produced. -/
theorem c4_all_nan_raises (fit : FitFn) (mp : MarkerPositionsM)
    (tracks : Nat → Nat → Option (List Vec3O)) (z t : Nat)
    (c0 : Vec3 × List Vec3O) (cs : List (Vec3 × List Vec3O))
    (hz : z < mp.numCrossSections)
    (hcoll : collect mp tracks z = c0 :: cs)
    (ht : t < c0.2.length)
    (hnan : ∀ rd ∈ collect mp tracks z, (rd.2.get? t).all hasNaN = true) :
    exOk (compute_positions_and_directors fit mp tracks) = false := by
  cases hres : compute_positions_and_directors fit mp tracks with
  | error e => rfl
  | ok pd =>
    exfalso
    rcases pd with ⟨pos, dir⟩
    simp only [compute_positions_and_directors] at hres
    split at hres
    · exact absurd hres (by simp)
    · rename_i rows hrows
      have hlen := mapExcept_ok_length hrows
      have hzrows : z < rows.length := by
        rw [hlen, List.length_range]
        exact hz
      have hrowz : rows.get? z = some (rows.get ⟨z, hzrows⟩) :=
        List.get?_eq_get hzrows
      have hrange : (List.range mp.numCrossSections).get? z = some z := by
        rw [List.get?_range hz]
      have hcz : computeZ fit mp tracks z = Except.ok (rows.get ⟨z, hzrows⟩) :=
        mapExcept_ok_get hrows hrange hrowz
      simp only [computeZ] at hcz
      split at hcz
      · exact absurd hcz (by simp)
      · rename_i c0' cs' hcoll'
        rw [hcoll'] at hcoll
        have hc0 : c0' = c0 := by
          have := List.head_eq_of_cons_eq hcoll
          exact this
        have hlen2 := mapExcept_ok_length hcz
        have htrow : t < (rows.get ⟨z, hzrows⟩).length := by
          rw [hlen2, List.length_range, hc0]
          exact ht
        have hrowt : (rows.get ⟨z, hzrows⟩).get? t =
            some ((rows.get ⟨z, hzrows⟩).get ⟨t, htrow⟩) :=
          List.get?_eq_get htrow
        have hrange2 : (List.range c0'.2.length).get? t = some t := by
          rw [List.get?_range]
          rw [hc0]
          exact ht
        have hfit := mapExcept_ok_get hcz hrange2 hrowt
        have hspec := fitAt_ok_spec hfit
        exact hspec.1 (samplesAt_nil_of_allNaN hnan)

theorem c4_witness :
    exOk (compute_positions_and_directors fitId mpOne tracksAllNaN) = false :=
  c4_all_nan_raises fitId mpOne tracksAllNaN 0 0
    ((0, 0, 0), [(none, none, none)]) []
    (by decide) (by decide) (by decide) (by decide)

/-- C2: a tracking job whose start frame is at least the video's total frame
count (`stime >= self.num_frames`) is skipped: `next_inquiry` pops the
inquiry and records it in the history, prints a warning, and returns without
touching anything else — in particular the points table (`self.points`) is
exactly the one the instance already held, so no pixel entry is modified and
no partial output is produced for the job. -/
theorem c2_skip_job_no_writes (prm : FlowParams) (video : List Nat) (fc : Nat)
    (self : COF) (tagsJ : List Nat) (stime etime : Nat) (rest hist : List Inq)
    (nf : Nat)
    (hinq : self.attr_inquiries = some ((tagsJ, stime, etime) :: rest))
    (hhist : self.attr_history = some hist)
    (hnf : self.attr_num_frames = some (some nf))
    (hskip : nf ≤ stime) :
    CameraOpticalFlow.next_inquiry prm video fc self =
      Except.ok { self with
        attr_inquiries := some rest
        attr_history := some (hist ++ [(tagsJ, stime, etime)]) } ∧
    ∀ s2, CameraOpticalFlow.next_inquiry prm video fc self = Except.ok s2 →
      s2.attr_points = self.attr_points := by
  have hmain : CameraOpticalFlow.next_inquiry prm video fc self =
      Except.ok { self with
        attr_inquiries := some rest
        attr_history := some (hist ++ [(tagsJ, stime, etime)]) } := by
    simp only [CameraOpticalFlow.next_inquiry, hinq,
      CameraOpticalFlow.num_frames, hhist, hnf]
    rw [if_pos hskip]
  refine ⟨hmain, ?_⟩
  intro s2 hs2
  rw [hmain] at hs2
  cases hs2
  rfl

theorem c2_witness :
    (CameraOpticalFlow.next_inquiry prmKeep vidFour 4 cofSkip).map
        (fun s => (s.attr_inquiries, s.attr_history, s.attr_points.isSome)) =
      Except.ok (some [], some [([1], 5, 8)], true) := by
  rw [(c2_skip_job_no_writes prmKeep vidFour 4 cofSkip [1] 5 8 [] [] 4
    rfl rfl rfl (by omega)).1]
  rfl

/-- C5: the pre-clear stage of `next_inquiry`
(`self.points[stime+1:etime, tag_order, :] = 0.0`, run before the flow loop
begins) sets exactly the entries at frames `stime+1` through `etime-1` of the
job's tag columns to the tracker's unknown sentinel, and leaves every entry
outside that (frame, tag) range exactly as it was, so stale values from prior
runs cannot survive within the job's range. -/
theorem c5_preclear_exact_range (T : Table) (stime etime : Nat)
    (tagOrder : List Nat) (f t : Nat) :
    preClear T stime etime tagOrder f t =
      if stime + 1 ≤ f ∧ f < etime ∧ t ∈ tagOrder then unknownPixel
      else T f t := by
  simp only [preClear]
  rw [rangeClear_spec]
  by_cases hm : t ∈ tagOrder
  · by_cases h1 : stime + 1 ≤ f ∧ f < etime
    · rcases h1 with ⟨ha, hb⟩
      rw [if_pos ⟨ha, by omega, hm⟩, if_pos ⟨ha, hb, hm⟩]
    · have hA : ¬(stime + 1 ≤ f ∧
          f < stime + 1 + (etime - (stime + 1)) ∧ t ∈ tagOrder) := by
        rintro ⟨ha, hb, -⟩
        exact h1 ⟨ha, by omega⟩
      have hB : ¬(stime + 1 ≤ f ∧ f < etime ∧ t ∈ tagOrder) := by
        rintro ⟨ha, hb, -⟩
        exact h1 ⟨ha, hb⟩
      rw [if_neg hA, if_neg hB]
  · rw [if_neg (fun hc => hm hc.2.2), if_neg (fun hc => hm hc.2.2)]

theorem prmShift_flow_len : ∀ (g g' : Nat) (ps : List Pt),
    (prmShift.flow g g' ps).1.length = ps.length ∧
    (prmShift.flow g g' ps).2.length = ps.length := by
  intro g g' ps
  constructor
  · simp [prmShift]
  · simp [prmShift]

theorem c6_witness :
    flowLoop prmShift vidFour 0 [0, 1] staleTable iterTwo 0 2 1 0 =
      if (flowSteps prmShift vidFour 0 iterTwo 1).st.getD 0 false = true
      then (flowSteps prmShift vidFour 0 iterTwo 1).p.getD 0 (0, 0)
      else staleTable 1 0 :=
  @c6_point_status_characterisation prmShift vidFour 0 [0, 1] 0
    prmShift_flow_len (by decide) (by decide) 0 2 staleTable iterTwo 0
    rfl rfl (by decide) (by decide)

theorem c7_witness :
    flowLoop prmLoseAll vidFour 0 [0, 1] staleTable iterTwo 0 3 2 0 =
      staleTable 2 0 :=
  @c7_total_loss_stops_loop prmLoseAll vidFour 0 [0, 1] 0 3 staleTable
    iterTwo 0 (by decide) 2 0 (by decide)

/-- C8: `load_positions_and_directors` sets its recompute flag exactly when
at least one of the two posture datasets is absent from the backing file;
when both are present it returns exactly the stored arrays (no
recomputation), and when the flag is set it returns exactly the freshly
recomputed pair for both arrays. Since the returned arrays in the cache-hit
case are a pure function of the stored file, calling the loader twice on an
unmodified file yields identical arrays. -/
theorem c8_recompute_iff_absent (h5 : String → Option Arr)
    (recompute : Except PyErr (Arr × Arr)) (tval : Arr)
    (htime : h5 timeKey = some tval) :
    (∀ fl p d tv, PostureData.load_positions_and_directors h5 recompute =
        Except.ok (fl, p, d, tv) →
      (fl = true ↔ (h5 positionsKey = none ∨ h5 directorsKey = none))) ∧
    (∀ P D, h5 positionsKey = some P → h5 directorsKey = some D →
      PostureData.load_positions_and_directors h5 recompute =
        Except.ok (false, P, D, tval)) ∧
    (∀ p d, recompute = Except.ok (p, d) →
      (h5 positionsKey = none ∨ h5 directorsKey = none) →
      PostureData.load_positions_and_directors h5 recompute =
        Except.ok (true, p, d, tval)) := by
  refine ⟨?_, ?_, ?_⟩
  · intro fl p d tv hres
    simp only [PostureData.load_positions_and_directors, htime] at hres
    cases hp : h5 positionsKey with
    | some P =>
      cases hd : h5 directorsKey with
      | some D =>
        simp only [hp, hd] at hres
        cases hres
        simp [hp, hd]
      | none =>
        simp only [hp, hd] at hres
        cases hr : recompute with
        | error e =>
          rw [hr] at hres
          exact absurd hres (by simp)
        | ok pr =>
          rcases pr with ⟨p', d'⟩
          rw [hr] at hres
          cases hres
          simp [hd]
    | none =>
      cases hd : h5 directorsKey with
      | some D =>
        simp only [hp, hd] at hres
        cases hr : recompute with
        | error e =>
          rw [hr] at hres
          exact absurd hres (by simp)
        | ok pr =>
          rcases pr with ⟨p', d'⟩
          rw [hr] at hres
          cases hres
          simp [hp]
      | none =>
        simp only [hp, hd] at hres
        cases hr : recompute with
        | error e =>
          rw [hr] at hres
          exact absurd hres (by simp)
        | ok pr =>
          rcases pr with ⟨p', d'⟩
          rw [hr] at hres
          cases hres
          simp [hp]
  · intro P D hp hd
    simp only [PostureData.load_positions_and_directors, htime, hp, hd]
  · intro p d hr habs
    simp only [PostureData.load_positions_and_directors, htime]
    cases hp : h5 positionsKey with
    | some P =>
      cases hd : h5 directorsKey with
      | some D =>
        exfalso
        rcases habs with h | h
        · rw [hp] at h
          exact absurd h (by simp)
        · rw [hd] at h
          exact absurd h (by simp)
      | none => simp only [hp, hd, hr]
    | none =>
      cases hd : h5 directorsKey with
      | some D => simp only [hp, hd, hr]
      | none => simp only [hp, hd, hr]

theorem c8_witness :
    PostureData.load_positions_and_directors h5Full (Except.ok ([7], [8])) =
      Except.ok (false, [1, 2], [3, 4], [0, 5]) :=
  ((c8_recompute_iff_absent h5Full (Except.ok ([7], [8])) [0, 5]
    (by decide)).2.1) [1, 2] [3, 4] (by decide) (by decide)

/-- C9 counterexample: `run` completes successfully on a freshly constructed
instance whose `flow_queues` is empty — the loop body never executes, so no
uninitialised attribute is read. The claim's "run cannot complete
successfully on any input" therefore fails at this input. -/
theorem c9_counterexample :
    CameraOpticalFlow.run prmKeep vidFour 4 (CameraOpticalFlow.init 3 []) =
      Except.ok (CameraOpticalFlow.init 3 []) := rfl

/-- C9 (amended): on every freshly constructed `CameraOpticalFlow`, the first
access to the `num_frames` property raises `AttributeError`, because
`__init__` never assigns the `_num_frames` attribute the property reads; and
`run()` fails with `AttributeError` whenever `flow_queues` is nonempty (the
first uninitialised attribute read happens already inside `next_inquiry`,
which `run` calls before it reaches `num_frames`). Only the vacuous
empty-queue run completes. -/
theorem c9_uninitialised_attributes (prm : FlowParams) (video : List Nat)
    (fc vp : Nat) (qs : List Nat) :
    CameraOpticalFlow.num_frames fc (CameraOpticalFlow.init vp qs) =
      Except.error PyErr.attributeError ∧
    (qs ≠ [] →
      CameraOpticalFlow.run prm video fc (CameraOpticalFlow.init vp qs) =
        Except.error PyErr.attributeError) := by
  constructor
  · rfl
  · intro hne
    cases qs with
    | nil => exact absurd rfl hne
    | cons q rest => rfl

theorem c9_witness :
    CameraOpticalFlow.num_frames 4 (CameraOpticalFlow.init 3 [0]) =
      Except.error PyErr.attributeError ∧
    CameraOpticalFlow.run prmKeep vidFour 4 (CameraOpticalFlow.init 3 [0]) =
      Except.error PyErr.attributeError :=
  ⟨(c9_uninitialised_attributes prmKeep vidFour 4 3 [0]).1,
   (c9_uninitialised_attributes prmKeep vidFour 4 3 [0]).2 (by decide)⟩

/-- C10: executing `main` of `data_augment_cross_section.py` stops with
`NameError` at the statement `data = np.load(file_path)`: the name
`file_path` is not bound (only `output_file_path` was assigned, and neither
the parameters nor the module's imports provide it), and the failure happens
before the load, so the effect trace is empty — nothing is read, computed,
or saved, for any input. -/
theorem c10_file_path_name_error :
    runStmts augmentGlobals [] augmentMainStmts =
      (Except.error "file_path", []) := rfl
